import Mathlib

/-!
# homebridge-gpio-ws2812: colour state and rendering pipeline

A shallow embedding of `src/index.js`.  JavaScript numbers are modelled as
rationals (`ℚ`), the channels produced by `Math.round` as integers, and
the words of the `Uint32Array` frame as naturals.  The colour conversions are
computed in exact rational arithmetic; the brightness product, whose value
reaches the driver as it is, is computed in binary64 arithmetic (`toDouble`).  Every method of the
accessory is a function from the accessory state to the new state together
with the list of observable events it produced, in program order: calls into
the `ws281x` strip driver, log lines, and invocations of the completion
callback.

The `this.log(...)` statement of `_setRGB` (line 191) is read with its
closing parenthesis after `rgb.b`; it only formats a log line.
-/

namespace GpioWs2812

/-! ## Numeric primitives -/

/-- The function `Math.floor` on an exact rational. -/
def Math_floor (x : ℚ) : Int := ⌊x⌋

/-- The function `Math.round`: the nearest integer, ties going up, that is `floor (x + 1/2)`. -/
def Math_round (x : ℚ) : Int := ⌊x + 1 / 2⌋

/-- The JavaScript remainder `a % b` on integers: the sign follows the dividend. -/
def jsRem (a b : Int) : Int := Int.tmod a b

/-- The expression `x & 0xff` for an integer-valued number `x`: `ToInt32`
followed by the mask keeps the low eight bits of the twos-complement
representation, which is the remainder modulo 256. -/
def and0xff (x : Int) : Nat := (x % 256).toNat

/-- The integer nearest to `x`, a tie going to the even neighbour: the rounding
rule of binary64 arithmetic. -/
def roundHalfEven (x : ℚ) : Int :=
  let f := ⌊x⌋
  let r := x - f
  if r < 1 / 2 then f else if 1 / 2 < r then f + 1 else if f % 2 = 0 then f else f + 1

/-- The binary exponent of the spacing of the doubles around a non-zero `x`: 52
below the exponent of `x`, and `-1074` in the subnormal range. -/
def ulpExponent (x : ℚ) : Int := max (Int.log 2 |x| - 52) (-1074)

/-- The double nearest to the exact value `x` (binary64, round to nearest, ties
to even), as an exact rational.  It covers every `x` of magnitude below `2^1024`,
where no overflow to an infinity happens. -/
def toDouble (x : ℚ) : ℚ :=
  if x = 0 then 0 else roundHalfEven (x / 2 ^ ulpExponent x) * 2 ^ ulpExponent x

/-- The quotient `a / b` of two doubles as JavaScript computes it, `b` not zero. -/
def divDouble (a b : ℚ) : ℚ := toDouble (a / b)

/-- The product `a * b` of two doubles as JavaScript computes it. -/
def mulDouble (a b : ℚ) : ℚ := toDouble (a * b)

/-! ## Data model -/

/-- Values handed to a completion callback. -/
inductive JSValue where
  | null : JSValue
  | bool (b : Bool) : JSValue
  | num (q : ℚ) : JSValue
  deriving DecidableEq

/-- Observable events, in program order. -/
inductive Event where
  /-- The call `this.ws281x.init(leds, ...)` with the pin in its options. -/
  | init (leds pin : Nat) : Event
  /-- The call `this.ws281x.setBrightness(value)`. -/
  | setBrightness (value : ℚ) : Event
  /-- The call `this.ws281x.render(colorData)`. -/
  | render (colorData : List Nat) : Event
  /-- The call `this.log(...)`. -/
  | log : Event
  /-- The call `callback(args...)`; `callback()` has no arguments. -/
  | callback (args : List JSValue) : Event
  deriving DecidableEq

/-- The object `this.cache`. -/
structure Cache where
  status : Bool
  brightness : ℚ
  hue : ℚ
  saturation : ℚ
  deriving DecidableEq

/-- The accessory object (`this`), without the host handles. -/
structure HTTP_NEO where
  pin : Nat
  leds : Nat
  cache : Cache
  deriving DecidableEq

/-- The configuration object; an absent key is `none`. -/
structure Config where
  pin : Option Nat
  leds : Option Nat

/-- The object returned by `_hsvToRgb`. -/
structure RGB where
  r : Int
  g : Int
  b : Int
  deriving DecidableEq

/-- The expression `x || d` for an optional number: `undefined` and `0` are falsy. -/
def orDefault (x : Option Nat) (d : Nat) : Nat :=
  match x with
  | none => d
  | some 0 => d
  | some n => n

/-- The constructor `HTTP_NEO(log, config)`. -/
def HTTP_NEO.construct (config : Config) : HTTP_NEO × List Event :=
  let pin := orDefault config.pin 18
  let leds := orDefault config.leds 96
  ({ pin := pin, leds := leds,
     cache := { status := true, brightness := 0, hue := 0, saturation := 0 } },
   [Event.log, Event.init leds pin])

/-! ## Colour conversion -/

/-- The method `_rgb2Int(r, g, b)` on integer channels. -/
def _rgb2Int (r g b : Int) : Nat :=
  (and0xff r <<< 16) + (and0xff g <<< 8) + and0xff b

/-- The method `_hsvToRgb(h, s, v)`.  When no `case` of the `switch` is selected the
variables `r`, `g`, `b` stay `undefined` and every channel of the returned
object is `NaN`; that object is `none` here. -/
def _hsvToRgb (h s v : ℚ) : Option RGB :=
  let h := h / 360
  let s := s / 100
  let v := v / 100
  let i := Math_floor (h * 6)
  let f := h * 6 - i
  let p := v * (1 - s)
  let q := v * (1 - f * s)
  let t := v * (1 - (1 - f) * s)
  let m := jsRem i 6
  let sel : Option (ℚ × ℚ × ℚ) :=
    if m = 0 then some (v, t, p)
    else if m = 1 then some (q, v, p)
    else if m = 2 then some (p, v, t)
    else if m = 3 then some (p, q, v)
    else if m = 4 then some (t, p, v)
    else if m = 5 then some (v, p, q)
    else none
  sel.map fun c =>
    { r := Math_round (c.1 * 255), g := Math_round (c.2.1 * 255), b := Math_round (c.2.2 * 255) }

/-! ## Rendering -/

/-- The word `_setRGB` stores in a slot: `_rgb2Int(rgb.r, rgb.g, rgb.b)`, where
`NaN & 0xff` is `0` in every channel of the all-`NaN` object. -/
def pixelWord (rgb : Option RGB) : Nat :=
  match rgb with
  | some c => _rgb2Int c.r c.g c.b
  | none => 0

/-- The frame loop of `_setRGB`: a zero-filled `Uint32Array(leds)` whose slots
`0 .. leds-1` are then overwritten one by one; a store keeps the word modulo `2^32`. -/
def colorData (leds : Nat) (word : Nat) : List Nat :=
  (List.range leds).foldl (fun a i => a.set i (word % 4294967296)) (List.replicate leds 0)

/-- The method `_setRGB(callback)`. -/
def _setRGB (self : HTTP_NEO) : HTTP_NEO × List Event :=
  let rgb := _hsvToRgb self.cache.hue self.cache.saturation 255
  (self, [Event.log, Event.render (colorData self.leds (pixelWord rgb)), Event.callback []])

/-! ## Getters and setters -/

/-- The method `getPowerState(callback)`. -/
def getPowerState (self : HTTP_NEO) : HTTP_NEO × List Event :=
  (self, [Event.callback [JSValue.null, JSValue.bool self.cache.status]])

/-- The method `setPowerState(state, callback)`. -/
def setPowerState (self : HTTP_NEO) (_state : Bool) : HTTP_NEO × List Event :=
  ({ self with cache := { self.cache with status := true } }, [Event.callback []])

/-- The method `getBrightness(callback)`. -/
def getBrightness (self : HTTP_NEO) : HTTP_NEO × List Event :=
  (self, [Event.callback [JSValue.null, JSValue.num self.cache.brightness]])

/-- The method `setBrightness(level, callback)`.  The argument of the driver call
is the double product `(255 / 100) * level`: first the double quotient of 255
and 100, then its double product with `level`. -/
def setBrightness (self : HTTP_NEO) (level : ℚ) : HTTP_NEO × List Event :=
  ({ self with cache := { self.cache with brightness := level } },
   [Event.setBrightness (mulDouble (divDouble 255 100) level)])

/-- The method `getHue(callback)`. -/
def getHue (self : HTTP_NEO) : HTTP_NEO × List Event :=
  (self, [Event.callback [JSValue.null, JSValue.num self.cache.hue]])

/-- The method `setHue(level, callback)`. -/
def setHue (self : HTTP_NEO) (level : ℚ) : HTTP_NEO × List Event :=
  _setRGB { self with cache := { self.cache with hue := level } }

/-- The method `getSaturation(callback)`. -/
def getSaturation (self : HTTP_NEO) : HTTP_NEO × List Event :=
  (self, [Event.callback [JSValue.null, JSValue.num self.cache.saturation]])

/-- The method `setSaturation(level, callback)`. -/
def setSaturation (self : HTTP_NEO) (level : ℚ) : HTTP_NEO × List Event :=
  _setRGB { self with cache := { self.cache with saturation := level } }

/-! ## Sequences of requests and projections of the event trace -/

/-- A request of the host accessory layer. -/
inductive Call where
  | getPowerState : Call
  | setPowerState (state : Bool) : Call
  | getBrightness : Call
  | setBrightness (level : ℚ) : Call
  | getHue : Call
  | setHue (level : ℚ) : Call
  | getSaturation : Call
  | setSaturation (level : ℚ) : Call
  deriving DecidableEq

/-- Dispatch of one request to the method bound to it in `getServices`. -/
def step (self : HTTP_NEO) (c : Call) : HTTP_NEO × List Event :=
  match c with
  | Call.getPowerState => getPowerState self
  | Call.setPowerState state => setPowerState self state
  | Call.getBrightness => getBrightness self
  | Call.setBrightness level => setBrightness self level
  | Call.getHue => getHue self
  | Call.setHue level => setHue self level
  | Call.getSaturation => getSaturation self
  | Call.setSaturation level => setSaturation self level

/-- Requests served one after the other, each running to completion. -/
def run (self : HTTP_NEO) : List Call → HTTP_NEO × List Event
  | [] => (self, [])
  | c :: cs =>
    let r := step self c
    let rest := run r.1 cs
    (rest.1, r.2 ++ rest.2)

/-- The frames passed to `ws281x.render`, in order. -/
def renders : List Event → List (List Nat)
  | [] => []
  | Event.render frame :: es => frame :: renders es
  | _ :: es => renders es

/-- The arguments passed to `ws281x.setBrightness`, in order. -/
def brightnessCalls : List Event → List ℚ
  | [] => []
  | Event.setBrightness value :: es => value :: brightnessCalls es
  | _ :: es => brightnessCalls es

/-- The argument lists of the completion callback invocations, in order. -/
def callbacks : List Event → List (List JSValue)
  | [] => []
  | Event.callback args :: es => args :: callbacks es
  | _ :: es => callbacks es

/-- The packed colour word `(r<<16)|(g<<8)|b` of a triple, written out
arithmetically on the low eight bits of each channel: red at bits 16..23, green
at bits 8..15, blue at bits 0..7; the all-`NaN` object gives the word 0. -/
def specWord (rgb : Option RGB) : Nat :=
  match rgb with
  | some c => (c.r % 256).toNat * 65536 + (c.g % 256).toNat * 256 + (c.b % 256).toNat
  | none => 0

/-- The frame the specification asks for: `leds` words, each the packed colour
of the triple `_hsvToRgb(hue, saturation, 255)`. -/
def specFrame (leds : Nat) (hue saturation : ℚ) : List Nat :=
  List.replicate leds (specWord (_hsvToRgb hue saturation 255))

/-- The renders the specification asks for over a sequence of requests, starting
from the given hue and saturation: one frame per `setHue` and per
`setSaturation`, for the combination current just after the update made by
that request, and nothing for any other request. -/
def specRenders (leds : Nat) (hue saturation : ℚ) : List Call → List (List Nat)
  | [] => []
  | Call.setHue level :: cs =>
    specFrame leds level saturation :: specRenders leds level saturation cs
  | Call.setSaturation level :: cs =>
    specFrame leds hue level :: specRenders leds hue level cs
  | _ :: cs => specRenders leds hue saturation cs

/-- Unpacking of a colour word: `((w >> 16) & 0xff, (w >> 8) & 0xff, w & 0xff)`. -/
def unpack (w : Nat) : Nat × Nat × Nat :=
  ((w >>> 16) &&& 0xff, (w >>> 8) &&& 0xff, w &&& 0xff)

/-- The accessory as constructed from an empty configuration: pin 18, 96 pixels. -/
def defaultAccessory : HTTP_NEO := (HTTP_NEO.construct { pin := none, leds := none }).1

/-- The calls into the strip driver among the events, in order. -/
def sinkCalls : List Event → List Event
  | [] => []
  | Event.init leds pin :: es => Event.init leds pin :: sinkCalls es
  | Event.setBrightness value :: es => Event.setBrightness value :: sinkCalls es
  | Event.render frame :: es => Event.render frame :: sinkCalls es
  | _ :: es => sinkCalls es

/-- The abstract operation `ToInt32` on an integer-valued number: the value
modulo `2^32`, read as a signed 32-bit integer. -/
def ToInt32 (x : Int) : Int :=
  let m := x % 4294967296
  if 2147483648 ≤ m then m - 4294967296 else m

/-- The expression `x & 0xff` computed on the bits: `ToInt32` of the operand,
then the bitwise conjunction with 255 on twos-complement integers. -/
def and0xffBits (x : Int) : Nat := (Int.land (ToInt32 x) 0xff).toNat

/-- The function `parseInt` applied to a number, read as truncation toward zero. -/
def parseInt (x : ℚ) : Int := if 0 ≤ x then ⌊x⌋ else ⌈x⌉

/-- A quotient `a / b` whose divisor is not a constant: `none` stands for the
non-finite result of a division by zero. -/
def jsDiv (a b : ℚ) : Option ℚ := if b = 0 then none else some (a / b)

/-- The method `_rgbToHsl(r, g, b)`.  The result is `none` when a division by
zero happened or no `case` of the `switch` was selected, that is when `h` or
`s` is not a finite number. -/
def _rgbToHsl (r g b : ℚ) : Option (Int × Int × Int) :=
  let r := r / 255
  let g := g / 255
  let b := b / 255
  let max := Max.max (Max.max r g) b
  let min := Min.min (Min.min r g) b
  let l := (max + min) / 2
  let hs : Option (ℚ × ℚ) :=
    if max = min then some (0, 0)
    else
      let d := max - min
      let s := if l > 1 / 2 then jsDiv d (2 - max - min) else jsDiv d (max + min)
      let h :=
        if max = r then (jsDiv (g - b) d).map fun x => x + (if g < b then 6 else 0)
        else if max = g then (jsDiv (b - r) d).map fun x => x + 2
        else if max = b then (jsDiv (r - g) d).map fun x => x + 4
        else none
      match h, s with
      | some h, some s => some (h / 6, s)
      | _, _ => none
  hs.map fun c => (parseInt (c.1 * 360), parseInt (c.2 * 100), parseInt (l * 100))

/-! ## Auxiliary lemmas -/

theorem and0xff_lt (x : Int) : and0xff x < 256 := by
  unfold and0xff; omega

theorem and0xff_of_range (x : Int) (h0 : 0 ≤ x) (h1 : x ≤ 255) : and0xff x = x.toNat := by
  unfold and0xff; omega

theorem _rgb2Int_eq (r g b : Int) :
    _rgb2Int r g b = and0xff r * 65536 + and0xff g * 256 + and0xff b := by
  simp [_rgb2Int, Nat.shiftLeft_eq]

theorem _rgb2Int_lt (r g b : Int) : _rgb2Int r g b < 16777216 := by
  have hr := and0xff_lt r
  have hg := and0xff_lt g
  have hb := and0xff_lt b
  rw [_rgb2Int_eq]; omega

theorem foldl_set_replicate (n x : Nat) :
    ∀ k, k ≤ n →
      (List.range k).foldl (fun a i => a.set i x) (List.replicate n 0)
        = List.replicate k x ++ List.replicate (n - k) 0 := by
  intro k
  induction k with
  | zero => intro _; simp
  | succ k ih =>
    intro hk
    rw [List.range_succ, List.foldl_append, ih (by omega)]
    apply List.ext_getElem
    · simp; omega
    · intro i h1 h2
      simp only [List.foldl_cons, List.foldl_nil, List.getElem_set, List.getElem_append,
        List.getElem_replicate, List.length_replicate]
      split_ifs <;> first | rfl | omega

theorem colorData_eq (n w : Nat) : colorData n w = List.replicate n (w % 4294967296) := by
  unfold colorData
  rw [foldl_set_replicate n _ n (le_refl n)]
  simp

theorem jsRem_six_cases (i : Int) (hi : 0 ≤ i) :
    jsRem i 6 = 0 ∨ jsRem i 6 = 1 ∨ jsRem i 6 = 2 ∨ jsRem i 6 = 3 ∨ jsRem i 6 = 4 ∨ jsRem i 6 = 5 := by
  unfold jsRem
  rw [Int.tmod_eq_emod hi (by decide)]
  omega

theorem pixelWord_lt (rgb : Option RGB) : pixelWord rgb < 16777216 := by
  cases rgb with
  | none => simp [pixelWord]
  | some c => exact _rgb2Int_lt c.r c.g c.b

theorem colorData_pixelWord (n : Nat) (rgb : Option RGB) :
    colorData n (pixelWord rgb) = List.replicate n (pixelWord rgb) := by
  have h := pixelWord_lt rgb
  rw [colorData_eq, Nat.mod_eq_of_lt (by omega)]

theorem renders_setRGB (self : HTTP_NEO) :
    renders (_setRGB self).2
      = [List.replicate self.leds
          (pixelWord (_hsvToRgb self.cache.hue self.cache.saturation 255))] := by
  simp [_setRGB, renders, colorData_pixelWord]

theorem roundHalfEven_eq (x : ℚ) (m : Int) (h1 : (m : ℚ) - 1 / 2 < x)
    (h2 : x < (m : ℚ) + 1 / 2) : roundHalfEven x = m := by
  unfold roundHalfEven
  by_cases hx : (m : ℚ) ≤ x
  · have hf : ⌊x⌋ = m := Int.floor_eq_iff.mpr ⟨hx, by linarith⟩
    simp only [hf]
    rw [if_pos (by linarith)]
  · have hx2 : x < (m : ℚ) := lt_of_not_le hx
    have hf : ⌊x⌋ = m - 1 := Int.floor_eq_iff.mpr ⟨by push_cast; linarith, by push_cast; linarith⟩
    simp only [hf]
    rw [if_neg (by push_cast; linarith), if_pos (by push_cast; linarith)]
    ring

theorem log_two_eq (x : ℚ) (k : Int) (h1 : (2 : ℚ) ^ k ≤ x) (h2 : x < (2 : ℚ) ^ (k + 1)) :
    Int.log 2 |x| = k := by
  have hpos : 0 < x := lt_of_lt_of_le (zpow_pos (by norm_num) k) h1
  rw [abs_of_pos hpos]
  have a : k ≤ Int.log 2 x :=
    (Int.zpow_le_iff_le_log (by norm_num) hpos).mp (by exact_mod_cast h1)
  have b : Int.log 2 x < k + 1 :=
    (Int.lt_zpow_iff_log_lt (by norm_num) hpos).mp (by exact_mod_cast h2)
  omega

theorem toDouble_eq (x : ℚ) (k m : Int) (h1 : (2 : ℚ) ^ k ≤ x) (h2 : x < (2 : ℚ) ^ (k + 1))
    (hk : -1022 ≤ k) (hm1 : (m : ℚ) - 1 / 2 < x / 2 ^ (k - 52))
    (hm2 : x / 2 ^ (k - 52) < (m : ℚ) + 1 / 2) : toDouble x = m * 2 ^ (k - 52) := by
  have hpos : 0 < x := lt_of_lt_of_le (zpow_pos (by norm_num) k) h1
  have he : ulpExponent x = k - 52 := by
    unfold ulpExponent
    rw [log_two_eq x k h1 h2]
    omega
  unfold toDouble
  rw [if_neg (ne_of_gt hpos), he, roundHalfEven_eq _ m hm1 hm2]

theorem divDouble_255_100 : divDouble 255 100 = 2871044762448691 / 1125899906842624 := by
  unfold divDouble
  rw [toDouble_eq (255 / 100) 1 5742089524897382 (by norm_num) (by norm_num) (by norm_num)
    (by norm_num) (by norm_num)]
  norm_num

theorem mulDouble_level_50 :
    mulDouble (divDouble 255 100) 50 = 8972014882652159 / 70368744177664 := by
  rw [divDouble_255_100]
  unfold mulDouble
  rw [toDouble_eq _ 6 8972014882652159 (by norm_num) (by norm_num) (by norm_num)
    (by norm_num) (by norm_num)]
  norm_num

theorem mulDouble_level_100 :
    mulDouble (divDouble 255 100) 100 = 8972014882652159 / 35184372088832 := by
  rw [divDouble_255_100]
  unfold mulDouble
  rw [toDouble_eq _ 7 8972014882652159 (by norm_num) (by norm_num) (by norm_num)
    (by norm_num) (by norm_num)]
  norm_num

theorem hsvToRgb_120_100_255 : _hsvToRgb 120 100 255 = some ⟨0, 650, 0⟩ := by
  norm_num [_hsvToRgb, Math_floor, Math_round, jsRem, Int.floor_eq_iff,
    (by decide : Int.tmod 2 6 = 2)]

theorem Math_round_unit (x : ℚ) (h0 : 0 ≤ x) (h1 : x ≤ 1) :
    0 ≤ Math_round (x * 255) ∧ Math_round (x * 255) ≤ 255 := by
  unfold Math_round
  constructor
  · apply Int.floor_nonneg.mpr
    positivity
  · have h : ⌊x * 255 + 1 / 2⌋ < 256 := by
      rw [Int.floor_lt]
      push_cast
      linarith
    omega

theorem Math_floor_nonneg (x : ℚ) (h0 : 0 ≤ x) : 0 ≤ Math_floor x :=
  Int.floor_nonneg.mpr h0

theorem Math_floor_fract (x : ℚ) : 0 ≤ x - Math_floor x ∧ x - Math_floor x < 1 := by
  unfold Math_floor
  have h1 := Int.floor_le x
  have h2 := Int.lt_floor_add_one x
  constructor <;> linarith

theorem unitChannels (S V f : ℚ) (hS0 : 0 ≤ S) (hS1 : S ≤ 1) (hV0 : 0 ≤ V) (hV1 : V ≤ 1)
    (hf0 : 0 ≤ f) (hf1 : f < 1) :
    (0 ≤ V ∧ V ≤ 1) ∧ (0 ≤ V * (1 - S) ∧ V * (1 - S) ≤ 1) ∧
      (0 ≤ V * (1 - f * S) ∧ V * (1 - f * S) ≤ 1) ∧
      (0 ≤ V * (1 - (1 - f) * S) ∧ V * (1 - (1 - f) * S) ≤ 1) := by
  have hfS0 : 0 ≤ f * S := mul_nonneg hf0 hS0
  have hfS1 : f * S ≤ 1 := by nlinarith
  have hgS0 : 0 ≤ (1 - f) * S := mul_nonneg (by linarith) hS0
  have hgS1 : (1 - f) * S ≤ 1 := by nlinarith
  refine ⟨⟨hV0, hV1⟩, ⟨mul_nonneg hV0 (by linarith), by nlinarith⟩,
    ⟨mul_nonneg hV0 (by linarith), by nlinarith⟩, ⟨mul_nonneg hV0 (by linarith), by nlinarith⟩⟩

theorem roundTriple_inRange (x y z : ℚ) (hx : 0 ≤ x ∧ x ≤ 1) (hy : 0 ≤ y ∧ y ≤ 1)
    (hz : 0 ≤ z ∧ z ≤ 1) :
    0 ≤ Math_round (x * 255) ∧ Math_round (x * 255) ≤ 255 ∧
      0 ≤ Math_round (y * 255) ∧ Math_round (y * 255) ≤ 255 ∧
      0 ≤ Math_round (z * 255) ∧ Math_round (z * 255) ≤ 255 := by
  have a := Math_round_unit x hx.1 hx.2
  have b := Math_round_unit y hy.1 hy.2
  have c := Math_round_unit z hz.1 hz.2
  exact ⟨a.1, a.2, b.1, b.2, c.1, c.2⟩

theorem or_eq_add (a b c : Nat) (hb : b < 256) (hc : c < 256) :
    ((a <<< 16) ||| (b <<< 8)) ||| c = a * 65536 + b * 256 + c := by
  have h1 : 2 ^ 16 * a + 2 ^ 8 * b = 2 ^ 16 * a ||| 2 ^ 8 * b :=
    Nat.mul_add_lt_is_or (by omega) a
  have h2 : 2 ^ 8 * (2 ^ 8 * a + b) + c = 2 ^ 8 * (2 ^ 8 * a + b) ||| c :=
    Nat.mul_add_lt_is_or (by omega) _
  have h3 : 2 ^ 8 * (2 ^ 8 * a + b) = 2 ^ 16 * a + 2 ^ 8 * b := by ring
  rw [Nat.shiftLeft_eq, Nat.shiftLeft_eq, Nat.mul_comm a, Nat.mul_comm b, ← h1, ← h3, ← h2]

theorem and_0xff (x : Nat) : x &&& 0xff = x % 256 :=
  Nat.and_pow_two_sub_one_eq_mod x 8

theorem unpack_eq (a b c : Nat) (ha : a < 256) (hb : b < 256) (hc : c < 256) :
    unpack (a * 65536 + b * 256 + c) = (a, b, c) := by
  simp only [unpack, and_0xff, Nat.shiftRight_eq_div_pow]
  refine Prod.ext ?_ (Prod.ext ?_ ?_) <;> simp only <;> omega

theorem renders_append (xs ys : List Event) : renders (xs ++ ys) = renders xs ++ renders ys := by
  induction xs with
  | nil => rfl
  | cons e es ih => cases e <;> simp [renders, ih]

theorem sinkCalls_append (xs ys : List Event) :
    sinkCalls (xs ++ ys) = sinkCalls xs ++ sinkCalls ys := by
  induction xs with
  | nil => rfl
  | cons e es ih => cases e <;> simp [sinkCalls, ih]

theorem status_step (self : HTTP_NEO) (c : Call) (h : self.cache.status = true) :
    (step self c).1.cache.status = true := by
  cases c <;>
    simp [step, getPowerState, setPowerState, getBrightness, setBrightness, getHue, setHue,
      getSaturation, setSaturation, _setRGB, h]

theorem status_run (calls : List Call) :
    ∀ self : HTTP_NEO, self.cache.status = true → (run self calls).1.cache.status = true := by
  induction calls with
  | nil => intro self h; exact h
  | cons c cs ih => intro self h; exact ih _ (status_step self c h)

theorem Math_floor_neg_sixtieth : Math_floor ((-1 : ℚ) / 360 * 6) = -1 := by
  norm_num [Math_floor, Int.floor_eq_iff]

theorem hsvToRgb_some_of_nonneg (h s v : ℚ) (h0 : 0 ≤ h) : ∃ c, _hsvToRgb h s v = some c := by
  have hi : 0 ≤ Math_floor (h / 360 * 6) := Math_floor_nonneg _ (by positivity)
  rcases jsRem_six_cases _ hi with hm | hm | hm | hm | hm | hm <;>
    simp [_hsvToRgb, hm]

theorem ldiff_0xff (m : Nat) : Nat.ldiff 255 m = 255 - m % 256 := by
  apply Nat.eq_of_testBit_eq
  intro i
  have h1 : (255 : Nat).testBit i = decide (i < 8) := Nat.testBit_two_pow_sub_one 8 i
  have h2 : (2 ^ 8 - (m % 2 ^ 8 + 1)).testBit i = (decide (i < 8) && !(m % 2 ^ 8).testBit i) :=
    Nat.testBit_two_pow_sub_succ (Nat.mod_lt _ (by decide)) i
  have h3 : (m % 2 ^ 8).testBit i = (decide (i < 8) && m.testBit i) :=
    Nat.testBit_mod_two_pow m 8 i
  have h4 : 255 - m % 256 = 2 ^ 8 - (m % 2 ^ 8 + 1) := by omega
  rw [Nat.testBit_ldiff, h4, h2, h3, h1]
  cases decide (i < 8) <;> cases m.testBit i <;> rfl

theorem land_0xff (t : Int) : Int.land t 0xff = t % 256 := by
  cases t with
  | ofNat m =>
    show ((m &&& 0xff : Nat) : Int) = (m : Int) % 256
    rw [and_0xff]
    omega
  | negSucc m =>
    show ((Nat.ldiff 255 m : Nat) : Int) = Int.negSucc m % 256
    rw [ldiff_0xff]
    have h := Int.negSucc_eq m
    omega

theorem ToInt32_emod (x : Int) : ToInt32 x % 256 = x % 256 := by
  unfold ToInt32
  simp only
  split_ifs <;> omega

theorem and0xff_eq_bits (x : Int) : and0xff x = and0xffBits x := by
  unfold and0xff and0xffBits
  rw [land_0xff, ToInt32_emod]

theorem parseInt_range (x : ℚ) (n : Int) (h0 : 0 ≤ x) (h1 : x ≤ n) :
    0 ≤ parseInt x ∧ parseInt x ≤ n := by
  unfold parseInt
  rw [if_pos h0]
  exact ⟨Int.floor_nonneg.mpr h0, Int.cast_le.mp (le_trans (Int.floor_le x) h1)⟩

theorem div_between (a d lo hi : ℚ) (hd : 0 < d) (h1 : lo * d ≤ a) (h2 : a ≤ hi * d) :
    lo ≤ a / d ∧ a / d ≤ hi :=
  ⟨(le_div_iff₀ hd).mpr h1, (div_le_iff₀ hd).mpr h2⟩

theorem jsDiv_of_ne (a b : ℚ) (hb : b ≠ 0) : jsDiv a b = some (a / b) := by
  simp [jsDiv, hb]

/-- Saturation of a non-achromatic colour: both candidate divisors are positive
and the quotient lies in `[0,1]`. -/
theorem saturation_unit (mx mn : ℚ) (h0 : 0 ≤ mn) (h1 : mx ≤ 1) (hlt : mn < mx) :
    ∃ s : ℚ,
      (if (mx + mn) / 2 > 1 / 2 then jsDiv (mx - mn) (2 - mx - mn)
        else jsDiv (mx - mn) (mx + mn)) = some s ∧ 0 ≤ s ∧ s ≤ 1 := by
  split_ifs with hl
  · have hp : 0 < 2 - mx - mn := by linarith
    refine ⟨_, jsDiv_of_ne _ _ (ne_of_gt hp), ?_⟩
    exact div_between _ _ 0 1 hp (by linarith) (by linarith)
  · have hp : 0 < mx + mn := by linarith
    refine ⟨_, jsDiv_of_ne _ _ (ne_of_gt hp), ?_⟩
    exact div_between _ _ 0 1 hp (by linarith) (by linarith)

/-- Hue sextant of a non-achromatic colour: the divisor `d` is positive, a case
of the `switch` is selected and the value lies in `[0,6]`. -/
theorem hue_sextant (r g b mx mn : ℚ) (hr : mn ≤ r ∧ r ≤ mx) (hg : mn ≤ g ∧ g ≤ mx)
    (hb : mn ≤ b ∧ b ≤ mx) (hmx : mx = r ∨ mx = g ∨ mx = b) (hlt : mn < mx) :
    ∃ h : ℚ,
      (if mx = r then (jsDiv (g - b) (mx - mn)).map fun x => x + (if g < b then 6 else 0)
        else if mx = g then (jsDiv (b - r) (mx - mn)).map fun x => x + 2
        else if mx = b then (jsDiv (r - g) (mx - mn)).map fun x => x + 4
        else none) = some h ∧ 0 ≤ h ∧ h ≤ 6 := by
  have hd : 0 < mx - mn := by linarith
  have hne : mx - mn ≠ 0 := ne_of_gt hd
  by_cases c1 : mx = r
  · rw [if_pos c1, jsDiv_of_ne _ _ hne, Option.map_some']
    by_cases hgb : g < b
    · have hq := div_between (g - b) (mx - mn) (-1) 0 hd (by linarith) (by linarith)
      rw [if_pos hgb]
      exact ⟨_, rfl, by linarith [hq.1], by linarith [hq.2]⟩
    · have hq := div_between (g - b) (mx - mn) 0 1 hd (by linarith) (by linarith)
      rw [if_neg hgb]
      exact ⟨_, rfl, by linarith [hq.1], by linarith [hq.2]⟩
  · rw [if_neg c1]
    by_cases c2 : mx = g
    · rw [if_pos c2, jsDiv_of_ne _ _ hne, Option.map_some']
      have hq := div_between (b - r) (mx - mn) (-1) 1 hd (by linarith) (by linarith)
      exact ⟨_, rfl, by linarith [hq.1], by linarith [hq.2]⟩
    · rw [if_neg c2]
      by_cases c3 : mx = b
      · rw [if_pos c3, jsDiv_of_ne _ _ hne, Option.map_some']
        have hq := div_between (r - g) (mx - mn) (-1) 1 hd (by linarith) (by linarith)
        exact ⟨_, rfl, by linarith [hq.1], by linarith [hq.2]⟩
      · rcases hmx with h | h | h
        · exact absurd h c1
        · exact absurd h c2
        · exact absurd h c3

/-! ## Claims -/

/-- C1 (the code at the failing input): from any state whose cached saturation
is 100, `setHue(120)` makes exactly one render call, and every pixel of that
frame is the word `0x008A00` (green channel `650 & 0xff = 138`), which is not
the packed colour (0,255,0) `= 0x00FF00`. -/
theorem C1_setHue_120_renders_0x008A00 (pin leds : Nat) (status : Bool) (brightness hue : ℚ) :
    renders (setHue ⟨pin, leds, ⟨status, brightness, hue, 100⟩⟩ 120).2
        = [List.replicate leds 0x008A00] ∧
      _rgb2Int 0 255 0 = 0x00FF00 ∧ (0x008A00 : Nat) ≠ _rgb2Int 0 255 0 := by
  refine ⟨?_, by decide, by decide⟩
  rw [setHue, renders_setRGB]
  simp only [hsvToRgb_120_100_255]
  rfl

/-- C2 (the claim fails at level 50): the only sink call of `setBrightness(50)`
carries the double `8972014882652159 / 2^46 = 127.49999999999999`, the unrounded
product; `Math.round` of that product is 127, and the argument is neither that
integer nor the 128 of the claim. -/
theorem C2_level_50_is_not_rounded :
    brightnessCalls (setBrightness defaultAccessory 50).2
        = [8972014882652159 / 70368744177664] ∧
      Math_round (mulDouble (divDouble 255 100) 50) = 127 ∧
      brightnessCalls (setBrightness defaultAccessory 50).2
        ≠ [((Math_round (mulDouble (divDouble 255 100) 50) : Int) : ℚ)] ∧
      brightnessCalls (setBrightness defaultAccessory 50).2 ≠ [128] := by
  have hr : Math_round (mulDouble (divDouble 255 100) 50) = 127 := by
    rw [mulDouble_level_50]
    norm_num [Math_round, Int.floor_eq_iff]
  refine ⟨?_, hr, ?_, ?_⟩
  · simp [setBrightness, brightnessCalls, mulDouble_level_50]
  · rw [hr]
    simp only [setBrightness, brightnessCalls, mulDouble_level_50]
    norm_num
  · simp only [setBrightness, brightnessCalls, mulDouble_level_50]
    norm_num

/-- C2 (amended): for every state and every level in `0..100`, `setBrightness(level)`
produces exactly one event, the sink call `setBrightness` whose argument is the
unrounded double product `(255/100) * level`, where the double `255/100` is
`2871044762448691 / 2^50`; it makes zero render calls. -/
theorem C2_setBrightness_unrounded (self : HTTP_NEO) (level : ℚ) (_h0 : 0 ≤ level)
    (_h1 : level ≤ 100) :
    (setBrightness self level).2
        = [Event.setBrightness (mulDouble (divDouble 255 100) level)] ∧
      brightnessCalls (setBrightness self level).2 = [mulDouble (divDouble 255 100) level] ∧
      renders (setBrightness self level).2 = [] ∧
      divDouble 255 100 = 2871044762448691 / 1125899906842624 := by
  refine ⟨rfl, rfl, rfl, divDouble_255_100⟩

/-- C2 instance: level 100, where the argument is the double
`8972014882652159 / 2^45 = 254.99999999999997`, not 255. -/
theorem C2_setBrightness_unrounded_witness :
    ((0 : ℚ) ≤ 100 ∧ (100 : ℚ) ≤ 100) ∧
      brightnessCalls (setBrightness defaultAccessory 100).2
        = [mulDouble (divDouble 255 100) 100] ∧
      mulDouble (divDouble 255 100) 100 = 8972014882652159 / 35184372088832 ∧
      mulDouble (divDouble 255 100) 100 ≠ 255 :=
  ⟨by norm_num,
    (C2_setBrightness_unrounded defaultAccessory 100 (by norm_num) (by norm_num)).2.1,
    mulDouble_level_100, by rw [mulDouble_level_100]; norm_num⟩

/-- C3 (the code at the failing input): `setBrightness` never invokes its
completion callback, for any state and level, while each of `setPowerState`,
`setHue` and `setSaturation` invokes it exactly once with no argument. -/
theorem C3_setBrightness_never_calls_back (self : HTTP_NEO) (level : ℚ) (state : Bool) :
    callbacks (setBrightness self level).2 = [] ∧
      callbacks (setPowerState self state).2 = [[]] ∧
      callbacks (setHue self level).2 = [[]] ∧
      callbacks (setSaturation self level).2 = [[]] := by
  simp [setBrightness, setPowerState, setHue, setSaturation, _setRGB, callbacks]

/-- C4 (the code at the failing input): for hue 0 and saturation 0, the state
right after construction, the triple derived with the fixed value 255 is
(650, 650, 650): every channel lies above 255. -/
theorem C4_hsvToRgb_0_0_255 :
    _hsvToRgb defaultAccessory.cache.hue defaultAccessory.cache.saturation 255
      = some ⟨650, 650, 650⟩ := by
  norm_num [defaultAccessory, HTTP_NEO.construct, _hsvToRgb, Math_floor, Math_round, jsRem,
    Int.floor_eq_iff]

/-- C5: at full saturation and value 100 the hues 0, 60, 120, 180, 240, 300, 360
give exactly red, yellow, green, cyan, blue, magenta and red again. -/
theorem C5_primary_and_secondary_colours :
    _hsvToRgb 0 100 100 = some ⟨255, 0, 0⟩ ∧
      _hsvToRgb 60 100 100 = some ⟨255, 255, 0⟩ ∧
      _hsvToRgb 120 100 100 = some ⟨0, 255, 0⟩ ∧
      _hsvToRgb 180 100 100 = some ⟨0, 255, 255⟩ ∧
      _hsvToRgb 240 100 100 = some ⟨0, 0, 255⟩ ∧
      _hsvToRgb 300 100 100 = some ⟨255, 0, 255⟩ ∧
      _hsvToRgb 360 100 100 = some ⟨255, 0, 0⟩ := by
  refine ⟨?_, ?_, ?_, ?_, ?_, ?_, ?_⟩ <;>
    norm_num [_hsvToRgb, Math_floor, Math_round, jsRem, Int.floor_eq_iff,
      (by decide : Int.tmod 1 6 = 1), (by decide : Int.tmod 2 6 = 2),
      (by decide : Int.tmod 3 6 = 3), (by decide : Int.tmod 4 6 = 4),
      (by decide : Int.tmod 5 6 = 5), (by decide : Int.tmod 6 6 = 0)]

/-- C6: for every hue `h` in `0..360`, `_hsvToRgb(h, 0, 100)` is white,
(255, 255, 255). -/
theorem C6_zero_saturation_is_white (h : ℚ) (h0 : 0 ≤ h) (_h1 : h ≤ 360) :
    _hsvToRgb h 0 100 = some ⟨255, 255, 255⟩ := by
  have hi : 0 ≤ Math_floor (h / 360 * 6) := Math_floor_nonneg _ (by positivity)
  have hr : Math_round 255 = 255 := by norm_num [Math_round, Int.floor_eq_iff]
  rcases jsRem_six_cases _ hi with hm | hm | hm | hm | hm | hm <;>
    simp [_hsvToRgb, hm, hr]

/-- C6 instance: hue 123. -/
theorem C6_zero_saturation_is_white_witness :
    (0 : ℚ) ≤ 123 ∧ (123 : ℚ) ≤ 360 ∧ _hsvToRgb 123 0 100 = some ⟨255, 255, 255⟩ :=
  ⟨by norm_num, by norm_num, C6_zero_saturation_is_white 123 (by norm_num) (by norm_num)⟩

/-- C7: for `h` in `[0,360]`, `s` in `[0,100]` and `v` in `[0,100]`, `_hsvToRgb(h,s,v)`
selects a case of its `switch` and each of the channels `r`, `g`, `b` it returns
is an integer in `0..255`. -/
theorem C7_hsvToRgb_channels_in_range (h s v : ℚ) (hh0 : 0 ≤ h) (_hh1 : h ≤ 360)
    (hs0 : 0 ≤ s) (hs1 : s ≤ 100) (hv0 : 0 ≤ v) (hv1 : v ≤ 100) :
    ∃ c : RGB, _hsvToRgb h s v = some c ∧
      0 ≤ c.r ∧ c.r ≤ 255 ∧ 0 ≤ c.g ∧ c.g ≤ 255 ∧ 0 ≤ c.b ∧ c.b ≤ 255 := by
  have hi : 0 ≤ Math_floor (h / 360 * 6) := Math_floor_nonneg _ (by positivity)
  obtain ⟨hf0, hf1⟩ := Math_floor_fract (h / 360 * 6)
  have hS0 : 0 ≤ s / 100 := by positivity
  have hS1 : s / 100 ≤ 1 := by rw [div_le_one (by norm_num)]; exact hs1
  have hV0 : 0 ≤ v / 100 := by positivity
  have hV1 : v / 100 ≤ 1 := by rw [div_le_one (by norm_num)]; exact hv1
  obtain ⟨hv, hp, hq, ht⟩ := unitChannels (s / 100) (v / 100) _ hS0 hS1 hV0 hV1 hf0 hf1
  rcases jsRem_six_cases _ hi with hm | hm | hm | hm | hm | hm
  · exact ⟨⟨_, _, _⟩, by simp [_hsvToRgb, hm, Math_round], roundTriple_inRange _ _ _ hv ht hp⟩
  · exact ⟨⟨_, _, _⟩, by simp [_hsvToRgb, hm, Math_round], roundTriple_inRange _ _ _ hq hv hp⟩
  · exact ⟨⟨_, _, _⟩, by simp [_hsvToRgb, hm, Math_round], roundTriple_inRange _ _ _ hp hv ht⟩
  · exact ⟨⟨_, _, _⟩, by simp [_hsvToRgb, hm, Math_round], roundTriple_inRange _ _ _ hp hq hv⟩
  · exact ⟨⟨_, _, _⟩, by simp [_hsvToRgb, hm, Math_round], roundTriple_inRange _ _ _ ht hp hv⟩
  · exact ⟨⟨_, _, _⟩, by simp [_hsvToRgb, hm, Math_round], roundTriple_inRange _ _ _ hv hp hq⟩

/-- C7 instance: hue 200, saturation 50, value 80. -/
theorem C7_hsvToRgb_channels_in_range_witness :
    ((0 : ℚ) ≤ 200 ∧ (200 : ℚ) ≤ 360 ∧ (0 : ℚ) ≤ 50 ∧ (50 : ℚ) ≤ 100 ∧
        (0 : ℚ) ≤ 80 ∧ (80 : ℚ) ≤ 100) ∧
      ∃ c : RGB, _hsvToRgb 200 50 80 = some c ∧
        0 ≤ c.r ∧ c.r ≤ 255 ∧ 0 ≤ c.g ∧ c.g ≤ 255 ∧ 0 ≤ c.b ∧ c.b ≤ 255 :=
  ⟨by norm_num, C7_hsvToRgb_channels_in_range 200 50 80 (by norm_num) (by norm_num)
    (by norm_num) (by norm_num) (by norm_num) (by norm_num)⟩

/-- C8: for every strip length and every triple the pipeline computes, the single
frame `_setRGB` passes to `render` has exactly `leds` entries and its entry at
every index below `leds` is the packed word of that one triple (`_rgb2Int` of
its channels); the frame loop leaves no slot at the zero fill, whatever the
length and the channels. -/
theorem C8_frame_has_leds_uniform_pixels (self : HTTP_NEO) :
    (∃ frame : List Nat,
        renders (_setRGB self).2 = [frame] ∧ frame.length = self.leds ∧
        ∀ i, i < self.leds →
          frame.get? i = some (pixelWord (_hsvToRgb self.cache.hue self.cache.saturation 255))) ∧
      (∀ c : RGB, pixelWord (some c) = _rgb2Int c.r c.g c.b) ∧
      ∀ (n : Nat) (r g b : Int),
        colorData n (_rgb2Int r g b) = List.replicate n (_rgb2Int r g b) := by
  refine ⟨⟨_, renders_setRGB self, by simp, ?_⟩, fun _ => rfl, ?_⟩
  · intro i hi
    simp [hi]
  · intro n r g b
    exact colorData_pixelWord n (some ⟨r, g, b⟩)

/-- C9: for integers `r`, `g`, `b` in `[0,255]` the word `_rgb2Int(r,g,b)` equals
`(r<<16)|(g<<8)|b`, unpacking it gives back `(r,g,b)`, and two triples in range
with the same word are equal. -/
theorem C9_pack_unpack_roundtrip (r g b : Int) (hr0 : 0 ≤ r) (hr1 : r ≤ 255)
    (hg0 : 0 ≤ g) (hg1 : g ≤ 255) (hb0 : 0 ≤ b) (hb1 : b ≤ 255) :
    _rgb2Int r g b = ((r.toNat <<< 16) ||| (g.toNat <<< 8)) ||| b.toNat ∧
      unpack (_rgb2Int r g b) = (r.toNat, g.toNat, b.toNat) ∧
      (((unpack (_rgb2Int r g b)).1 : Int) = r ∧ ((unpack (_rgb2Int r g b)).2.1 : Int) = g ∧
        ((unpack (_rgb2Int r g b)).2.2 : Int) = b) ∧
      ∀ r2 g2 b2 : Int, 0 ≤ r2 → r2 ≤ 255 → 0 ≤ g2 → g2 ≤ 255 → 0 ≤ b2 → b2 ≤ 255 →
        _rgb2Int r g b = _rgb2Int r2 g2 b2 → r = r2 ∧ g = g2 ∧ b = b2 := by
  have er := and0xff_of_range r hr0 hr1
  have eg := and0xff_of_range g hg0 hg1
  have eb := and0xff_of_range b hb0 hb1
  have hu : unpack (_rgb2Int r g b) = (r.toNat, g.toNat, b.toNat) := by
    rw [_rgb2Int_eq, er, eg, eb]
    exact unpack_eq _ _ _ (by omega) (by omega) (by omega)
  refine ⟨?_, hu, ?_, ?_⟩
  · rw [_rgb2Int_eq, er, eg, eb, or_eq_add _ _ _ (by omega) (by omega)]
  · rw [hu]
    exact ⟨Int.toNat_of_nonneg hr0, Int.toNat_of_nonneg hg0, Int.toNat_of_nonneg hb0⟩
  · intro r2 g2 b2 h1 h2 h3 h4 h5 h6 he
    have er2 := and0xff_of_range r2 h1 h2
    have eg2 := and0xff_of_range g2 h3 h4
    have eb2 := and0xff_of_range b2 h5 h6
    rw [_rgb2Int_eq, _rgb2Int_eq, er, eg, eb, er2, eg2, eb2] at he
    omega

/-- C9 instance: the triple (18, 52, 86) packs to `0x123456`. -/
theorem C9_pack_unpack_roundtrip_witness :
    _rgb2Int 18 52 86 = 0x123456 ∧ unpack (_rgb2Int 18 52 86) = (18, 52, 86) :=
  ⟨by decide,
    (C9_pack_unpack_roundtrip 18 52 86 (by decide) (by decide) (by decide) (by decide)
      (by decide) (by decide)).2.1⟩

/-- C10: over every sequence of requests, the frames passed to `render` are, in
order, exactly one frame per `setHue` and per `setSaturation` request (each
such call on its own renders exactly one frame), each made of `leds` copies of
the packed word of the triple `_hsvToRgb(hue, saturation, 255)` for the hue and
saturation cached right after the update made by that request; so `setHue(0)`
followed by `setSaturation(50)` gives two renders, the second for hue 0 and
saturation 50, which is the word `0x8A4545` in every pixel, and from the freshly
constructed accessory the first is `0x8A8A8A` in each of the 96 pixels. -/
theorem C10_each_colour_setter_renders_once (self : HTTP_NEO) (calls : List Call) :
    renders (run self calls).2
        = specRenders self.leds self.cache.hue self.cache.saturation calls ∧
      (∀ level : ℚ, (setHue self level).1.cache.hue = level ∧
        renders (setHue self level).2
          = [specFrame self.leds (setHue self level).1.cache.hue
              (setHue self level).1.cache.saturation]) ∧
      (∀ level : ℚ, (setSaturation self level).1.cache.saturation = level ∧
        renders (setSaturation self level).2
          = [specFrame self.leds (setSaturation self level).1.cache.hue
              (setSaturation self level).1.cache.saturation]) ∧
      renders (run self [Call.setHue 0, Call.setSaturation 50]).2
        = [specFrame self.leds 0 self.cache.saturation, specFrame self.leds 0 50] ∧
      specFrame self.leds 0 50 = List.replicate self.leds 0x8A4545 ∧
      renders (run defaultAccessory [Call.setHue 0, Call.setSaturation 50]).2
        = [List.replicate 96 0x8A8A8A, List.replicate 96 0x8A4545] := by
  have h00 : _hsvToRgb 0 0 255 = some ⟨650, 650, 650⟩ := by
    norm_num [_hsvToRgb, Math_floor, Math_round, jsRem, Int.floor_eq_iff]
  have h50 : _hsvToRgb 0 50 255 = some ⟨650, 325, 325⟩ := by
    norm_num [_hsvToRgb, Math_floor, Math_round, jsRem, Int.floor_eq_iff]
  have hw : ∀ rgb : Option RGB, pixelWord rgb = specWord rgb := by
    intro rgb
    cases rgb with
    | none => rfl
    | some c => simp only [pixelWord, specWord, _rgb2Int, and0xff, Nat.shiftLeft_eq]
  have colorData_eq_specFrame : ∀ (leds : Nat) (hue saturation : ℚ),
      colorData leds (pixelWord (_hsvToRgb hue saturation 255))
        = specFrame leds hue saturation := by
    intro leds hue saturation
    have hlt : pixelWord (_hsvToRgb hue saturation 255) < 4294967296 := by
      rw [hw]
      cases _hsvToRgb hue saturation 255 with
      | none => simp [specWord]
      | some c => simp only [specWord]; omega
    unfold colorData
    rw [foldl_set_replicate _ _ _ (le_refl leds), Nat.mod_eq_of_lt hlt, hw, specFrame]
    simp
  have w00 : specWord (some ⟨650, 650, 650⟩) = 0x8A8A8A := by decide
  have w50 : specWord (some ⟨650, 325, 325⟩) = 0x8A4545 := by decide
  have two : ∀ st : HTTP_NEO, renders (run st [Call.setHue 0, Call.setSaturation 50]).2
      = [specFrame st.leds 0 st.cache.saturation, specFrame st.leds 0 50] := by
    intro st
    simp [run, step, setHue, setSaturation, _setRGB, renders, colorData_eq_specFrame]
  refine ⟨?_, ?_, ?_, two self, ?_, ?_⟩
  · induction calls generalizing self with
    | nil => rfl
    | cons c cs ih =>
      cases c <;>
        simp [run, step, renders_append, specRenders, ih, setHue, setSaturation,
          _setRGB, getPowerState, setPowerState, getBrightness, setBrightness, getHue,
          getSaturation, renders, colorData_eq_specFrame]
  · intro level
    simp [setHue, _setRGB, renders, colorData_eq_specFrame]
  · intro level
    simp [setSaturation, _setRGB, renders, colorData_eq_specFrame]
  · rw [specFrame, h50, w50]
  · rw [two defaultAccessory]
    simp only [specFrame, defaultAccessory, HTTP_NEO.construct, orDefault, h00, h50, w00, w50]

/-- C11: for brightness, hue and saturation alike, the getter called after the
setter was called with `v` invokes its callback once, with a null error and
exactly `v`. -/
theorem C11_getter_delivers_last_set_value (self : HTTP_NEO) (v : ℚ) :
    (getBrightness (setBrightness self v).1).2
        = [Event.callback [JSValue.null, JSValue.num v]] ∧
      (getHue (setHue self v).1).2 = [Event.callback [JSValue.null, JSValue.num v]] ∧
      (getSaturation (setSaturation self v).1).2
        = [Event.callback [JSValue.null, JSValue.num v]] := by
  simp [getBrightness, setBrightness, getHue, setHue, getSaturation, setSaturation, _setRGB]

/-- C12 (the code at the failing input): after `setPowerState(false)` the getter
`getPowerState` delivers `true` to its callback, from every state; the argument
is not recorded. -/
theorem C12_setPowerState_false_reads_back_true (self : HTTP_NEO) :
    (getPowerState (setPowerState self false).1).2
        = [Event.callback [JSValue.null, JSValue.bool true]] ∧
      (setPowerState self false).1.cache.status ≠ false := by
  simp [getPowerState, setPowerState]

/-- C13: two states that agree on hue, saturation and strip length, whatever
their cached brightness and power, render identical frames for the same
`setHue(h)` and for the same `setSaturation(s)`. -/
theorem C13_frame_independent_of_brightness_and_power (s1 s2 : HTTP_NEO) (h s : ℚ)
    (hl : s1.leds = s2.leds) (hh : s1.cache.hue = s2.cache.hue)
    (hs : s1.cache.saturation = s2.cache.saturation) :
    renders (setHue s1 h).2 = renders (setHue s2 h).2 ∧
      renders (setSaturation s1 s).2 = renders (setSaturation s2 s).2 := by
  simp [setHue, setSaturation, _setRGB, renders, hl, hh, hs]

/-- C13 instance: brightness 10 with power on against brightness 90 with power off. -/
theorem C13_frame_independent_of_brightness_and_power_witness :
    renders (setHue ⟨18, 96, ⟨true, 10, 30, 40⟩⟩ 200).2
        = renders (setHue ⟨18, 96, ⟨false, 90, 30, 40⟩⟩ 200).2 ∧
      renders (setSaturation ⟨18, 96, ⟨true, 10, 30, 40⟩⟩ 70).2
        = renders (setSaturation ⟨18, 96, ⟨false, 90, 30, 40⟩⟩ 70).2 :=
  C13_frame_independent_of_brightness_and_power ⟨18, 96, ⟨true, 10, 30, 40⟩⟩
    ⟨18, 96, ⟨false, 90, 30, 40⟩⟩ 200 70 rfl rfl rfl

/-- C14: the cached power flag is true right after construction and after every
sequence of requests served from there; `setPowerState` leaves it true whatever
its argument, and every single request keeps it true. -/
theorem C14_power_flag_always_true (config : Config) (calls : List Call) :
    (HTTP_NEO.construct config).1.cache.status = true ∧
      (run (HTTP_NEO.construct config).1 calls).1.cache.status = true ∧
      (∀ (self : HTTP_NEO) (state : Bool), (setPowerState self state).1.cache.status = true) ∧
      ∀ (self : HTTP_NEO) (c : Call),
        self.cache.status = true → (step self c).1.cache.status = true :=
  ⟨rfl, status_run calls _ rfl, fun _ _ => rfl, status_step⟩

/-- C15: for every state and argument `setPowerState` makes no call into the
strip driver, neither `render` nor `setBrightness`; its only event is the
callback, so the trace of driver calls is the same with and without it. -/
theorem C15_setPowerState_makes_no_sink_call (self : HTTP_NEO) (state : Bool) :
    sinkCalls (setPowerState self state).2 = [] ∧
      renders (setPowerState self state).2 = [] ∧
      brightnessCalls (setPowerState self state).2 = [] ∧
      ∀ before after : List Event,
        sinkCalls (before ++ (setPowerState self state).2 ++ after)
          = sinkCalls (before ++ after) := by
  refine ⟨rfl, rfl, rfl, ?_⟩
  intro before after
  simp [sinkCalls_append, setPowerState, sinkCalls]

/-- C16: each setter writes only its own cached attribute: `setPowerState`
leaves brightness, hue and saturation, `setBrightness` leaves hue, saturation
and status, `setHue` leaves brightness, saturation and status, `setSaturation`
leaves brightness, hue and status, and none of the four changes `leds` or `pin`. -/
theorem C16_setters_write_only_their_attribute (self : HTTP_NEO) (state : Bool) (level : ℚ) :
    ((setPowerState self state).1.cache.brightness = self.cache.brightness ∧
        (setPowerState self state).1.cache.hue = self.cache.hue ∧
        (setPowerState self state).1.cache.saturation = self.cache.saturation ∧
        (setPowerState self state).1.leds = self.leds ∧
        (setPowerState self state).1.pin = self.pin) ∧
      ((setBrightness self level).1.cache.hue = self.cache.hue ∧
        (setBrightness self level).1.cache.saturation = self.cache.saturation ∧
        (setBrightness self level).1.cache.status = self.cache.status ∧
        (setBrightness self level).1.leds = self.leds ∧
        (setBrightness self level).1.pin = self.pin) ∧
      ((setHue self level).1.cache.brightness = self.cache.brightness ∧
        (setHue self level).1.cache.saturation = self.cache.saturation ∧
        (setHue self level).1.cache.status = self.cache.status ∧
        (setHue self level).1.leds = self.leds ∧
        (setHue self level).1.pin = self.pin) ∧
      ((setSaturation self level).1.cache.brightness = self.cache.brightness ∧
        (setSaturation self level).1.cache.hue = self.cache.hue ∧
        (setSaturation self level).1.cache.status = self.cache.status ∧
        (setSaturation self level).1.leds = self.leds ∧
        (setSaturation self level).1.pin = self.pin) := by
  simp [setPowerState, setBrightness, setHue, setSaturation, _setRGB]

/-- C17: for every `h ≥ 0` the sector index `floor(h/360*6) % 6` is one of
`0..5`, so a case of the `switch` is selected and the channels are defined;
without `h ≥ 0` this fails: at `h = -1` the remainder is `-1` and no case is
selected. -/
theorem C17_sector_index_selects_a_case (h s v : ℚ) (h0 : 0 ≤ h) :
    (jsRem (Math_floor (h / 360 * 6)) 6 = 0 ∨ jsRem (Math_floor (h / 360 * 6)) 6 = 1 ∨
        jsRem (Math_floor (h / 360 * 6)) 6 = 2 ∨ jsRem (Math_floor (h / 360 * 6)) 6 = 3 ∨
        jsRem (Math_floor (h / 360 * 6)) 6 = 4 ∨ jsRem (Math_floor (h / 360 * 6)) 6 = 5) ∧
      (∃ c : RGB, _hsvToRgb h s v = some c) ∧
      jsRem (Math_floor ((-1 : ℚ) / 360 * 6)) 6 = -1 ∧
      _hsvToRgb (-1) s v = none := by
  refine ⟨jsRem_six_cases _ (Math_floor_nonneg _ (by positivity)),
    hsvToRgb_some_of_nonneg h s v h0, ?_, ?_⟩
  · rw [Math_floor_neg_sixtieth]; decide
  · have hm : jsRem (-1) 6 = -1 := by decide
    simp [_hsvToRgb, Math_floor_neg_sixtieth, hm]

/-- C17 instance: hue 400, beyond a full turn, with saturation and value 100. -/
theorem C17_sector_index_selects_a_case_witness :
    (0 : ℚ) ≤ 400 ∧ ∃ c : RGB, _hsvToRgb 400 100 100 = some c :=
  ⟨by norm_num, (C17_sector_index_selects_a_case 400 100 100 (by norm_num)).2.1⟩

/-- C18: hue wraps around: `_hsvToRgb(360, s, v)` equals `_hsvToRgb(0, s, v)` for
every `s` and `v`, and `setHue(360)` renders the same frame as `setHue(0)`. -/
theorem C18_hue_360_equals_hue_0 (s v : ℚ) (self : HTTP_NEO) :
    _hsvToRgb 360 s v = _hsvToRgb 0 s v ∧
      renders (setHue self 360).2 = renders (setHue self 0).2 := by
  have h6 : Math_floor ((360 : ℚ) / 360 * 6) = 6 := by norm_num [Math_floor]
  have h0 : Math_floor ((0 : ℚ) / 360 * 6) = 0 := by norm_num [Math_floor]
  have m6 : jsRem 6 6 = 0 := by decide
  have m0 : jsRem 0 6 = 0 := by decide
  have key : ∀ s v : ℚ, _hsvToRgb 360 s v = _hsvToRgb 0 s v := by
    intro s v
    simp only [_hsvToRgb, h6, h0, m6, m0]
    norm_num
  exact ⟨key s v, by simp [setHue, _setRGB, renders, key]⟩

/-- C19: for all integers `r`, `g`, `b` the word `_rgb2Int(r,g,b)` is below `2^24`
and equals `_rgb2Int(r mod 256, g mod 256, b mod 256)`; each mask `x & 0xff`
agrees with the bitwise conjunction of `ToInt32(x)` with 255, and the channels
(650, 650, 650) that `_hsvToRgb` yields for value 255 pack to `0x8A8A8A`. -/
theorem C19_rgb2Int_keeps_low_eight_bits (r g b : Int) :
    _rgb2Int r g b < 2 ^ 24 ∧
      _rgb2Int r g b = _rgb2Int (r % 256) (g % 256) (b % 256) ∧
      (and0xff r = and0xffBits r ∧ and0xff g = and0xffBits g ∧ and0xff b = and0xffBits b) ∧
      _rgb2Int 650 650 650 = 0x8A8A8A := by
  refine ⟨_rgb2Int_lt r g b, ?_, ⟨and0xff_eq_bits r, and0xff_eq_bits g, and0xff_eq_bits b⟩,
    by decide⟩
  have hm : ∀ x : Int, and0xff (x % 256) = and0xff x := by
    intro x
    unfold and0xff
    omega
  simp only [_rgb2Int, hm]

/-- C20: for integers `r`, `g`, `b` in `[0,255]`, `_rgbToHsl(r,g,b)` returns finite
numbers (no divisor vanishes and a case of the `switch` is selected), `h` is an
integer in `0..360`, `s` and `l` are integers in `0..100`, and when
`r = g = b` both `h` and `s` are 0. -/
theorem C20_rgbToHsl_ranges (r g b : Int) (hr0 : 0 ≤ r) (hr1 : r ≤ 255) (hg0 : 0 ≤ g)
    (hg1 : g ≤ 255) (hb0 : 0 ≤ b) (hb1 : b ≤ 255) :
    (∃ h s l : Int, _rgbToHsl r g b = some (h, s, l) ∧
        0 ≤ h ∧ h ≤ 360 ∧ 0 ≤ s ∧ s ≤ 100 ∧ 0 ≤ l ∧ l ≤ 100) ∧
      (r = g → g = b → ∃ l : Int, _rgbToHsl r g b = some (0, 0, l)) := by
  have cast0 : ∀ x : Int, 0 ≤ x → (0 : ℚ) ≤ (x : ℚ) / 255 := fun x hx =>
    div_nonneg (Int.cast_nonneg.mpr hx) (by norm_num)
  have cast1 : ∀ x : Int, x ≤ 255 → (x : ℚ) / 255 ≤ 1 := fun x hx => by
    rw [div_le_one (by norm_num)]
    exact_mod_cast hx
  have p0 : parseInt 0 = 0 := by simp [parseInt]
  constructor
  · have hR0 := cast0 r hr0
    have hR1 := cast1 r hr1
    have hG0 := cast0 g hg0
    have hG1 := cast1 g hg1
    have hB0 := cast0 b hb0
    have hB1 := cast1 b hb1
    simp only [_rgbToHsl]
    generalize (r : ℚ) / 255 = R at *
    generalize (g : ℚ) / 255 = G at *
    generalize (b : ℚ) / 255 = B at *
    have hmxR : R ≤ max (max R G) B := le_trans (le_max_left R G) (le_max_left _ B)
    have hmxG : G ≤ max (max R G) B := le_trans (le_max_right R G) (le_max_left _ B)
    have hmxB : B ≤ max (max R G) B := le_max_right _ B
    have hmnR : min (min R G) B ≤ R := le_trans (min_le_left _ B) (min_le_left R G)
    have hmnG : min (min R G) B ≤ G := le_trans (min_le_left _ B) (min_le_right R G)
    have hmnB : min (min R G) B ≤ B := min_le_right _ B
    have hmx1 : max (max R G) B ≤ 1 := max_le (max_le hR1 hG1) hB1
    have hmn0 : 0 ≤ min (min R G) B := le_min (le_min hR0 hG0) hB0
    have hmx : max (max R G) B = R ∨ max (max R G) B = G ∨ max (max R G) B = B := by
      rcases max_choice (max R G) B with h | h
      · rcases max_choice R G with h2 | h2
        · exact Or.inl (h.trans h2)
        · exact Or.inr (Or.inl (h.trans h2))
      · exact Or.inr (Or.inr h)
    generalize max (max R G) B = mx at *
    generalize min (min R G) B = mn at *
    have hl := parseInt_range ((mx + mn) / 2 * 100) 100 (by linarith)
      (by push_cast; linarith)
    by_cases heq : mx = mn
    · rw [if_pos heq]
      exact ⟨_, _, _, rfl, by simp [p0], by simp [p0], by simp [p0], by simp [p0], hl.1, hl.2⟩
    · have hlt : mn < mx := lt_of_le_of_ne (le_trans hmnR hmxR) (Ne.symm heq)
      obtain ⟨sv, hs, hs0, hs1⟩ := saturation_unit mx mn hmn0 hmx1 hlt
      obtain ⟨hv, hh, hh0, hh1⟩ :=
        hue_sextant R G B mx mn ⟨hmnR, hmxR⟩ ⟨hmnG, hmxG⟩ ⟨hmnB, hmxB⟩ hmx hlt
      rw [if_neg heq, hh, hs]
      have hH := parseInt_range (hv / 6 * 360) 360 (by linarith) (by push_cast; linarith)
      have hS := parseInt_range (sv * 100) 100 (by linarith) (by push_cast; linarith)
      exact ⟨_, _, _, rfl, hH.1, hH.2, hS.1, hS.2, hl.1, hl.2⟩
  · intro h1 h2
    subst h1
    subst h2
    simp [_rgbToHsl, p0]

/-- C20 instance: the colour (10, 20, 30). -/
theorem C20_rgbToHsl_ranges_witness :
    ∃ h s l : Int, _rgbToHsl ((10 : Int) : ℚ) ((20 : Int) : ℚ) ((30 : Int) : ℚ) = some (h, s, l) ∧
      0 ≤ h ∧ h ≤ 360 ∧ 0 ≤ s ∧ s ≤ 100 ∧ 0 ≤ l ∧ l ≤ 100 :=
  (C20_rgbToHsl_ranges 10 20 30 (by decide) (by decide) (by decide) (by decide) (by decide)
    (by decide)).1

end GpioWs2812
